import Mathlib

/-!
Verification of the csvpb / splitio packages of abergmeier/golang-protobuf.

Each Go function relevant to the claims is shallowly embedded as an
executable Lean definition; theorems about these definitions settle the
claims.  Machine integers are modelled as `Nat`/`Int` with explicit bounds
where the Go code checks them; fallible Go functions return `Except` or
`Option`; byte slices are `List Nat`.
-/

set_option autoImplicit false

namespace Splitio

/-! ## splitio/reader.go

`NewReadersSequential` wraps one `bufio.Reader` into a left reader (bytes
before the first separator) and a right reader that blocks on a
`sync.WaitGroup` until the left reader signals `wg.Done()`.

The model tracks the shared buffered source as the list of bytes not yet
consumed, the left reader's `done` flag, and whether `wg.Done()` has been
called (`signalled`).  A `Read` call on the left reader with a destination
buffer of size `c ≤ 1024` is modelled exactly: `br.Peek(min c 1024)`
returns the first `min c 1024` remaining bytes (fewer at end of input),
and when the separator is not in that window `br.Read(p)` returns exactly
those window bytes (the underlying source is a `bytes.Reader`, so the
buffered reader holds at least the peeked window).  The right reader's
`Read` first executes `wg.Wait()`: if `wg.Done()` has not been called this
blocks forever, modelled by returning `none`.
-/

/-- State shared by the two readers produced by `NewReadersSequential`. -/
structure SplitState where
  remaining : List Nat
  sep : Nat
  done : Bool
  signalled : Bool
  deriving Repr, DecidableEq

/-- Embeds `findByte` of splitio/reader.go: index of the first occurrence
of `sep`, `none` standing for the Go result `-1`. -/
def findByte : List Nat → Nat → Option Nat
  | [], _ => none
  | v :: s, sep =>
    if v = sep then some 0
    else match findByte s sep with
      | some i => some (i + 1)
      | none => none

/-- Result of one `Read` call: bytes delivered, whether `io.EOF` was
returned alongside them, and the new shared state. -/
structure ReadResult where
  bytes : List Nat
  eof : Bool
  state : SplitState
  deriving Repr, DecidableEq

/-- Embeds `lhsReader.Read` of splitio/reader.go for a destination buffer
of size `c` (the model is exact for `0 < c ≤ 1024`, see the section
comment). -/
def lhsRead (c : Nat) (st : SplitState) : ReadResult :=
  if st.done then ⟨[], true, st⟩
  else if c = 0 then ⟨[], false, st⟩
  else
    let window := st.remaining.take (min c 1024)
    match findByte window st.sep with
    | none =>
      -- br.Read(p): returns the buffered window, or io.EOF when empty
      if window.isEmpty then ⟨[], true, st⟩
      else ⟨window, false, { st with remaining := st.remaining.drop window.length }⟩
    | some i =>
      -- p = p[:i]; br.Read(p); br.ReadByte() consumes the separator;
      -- r.done = true; r.wg.Done(); return n, io.EOF
      ⟨window.take i, true,
        { st with remaining := st.remaining.drop (i + 1), done := true, signalled := true }⟩

/-- Repeatedly calls `lhsRead` (as `ioutil.ReadAll` does) until a call
reports `io.EOF`, concatenating the delivered bytes.  `fuel` bounds the
number of calls; any `fuel > remaining.length` reaches EOF. -/
def lhsReadAll (c : Nat) : Nat → SplitState → List Nat × SplitState
  | 0, st => ([], st)
  | fuel + 1, st =>
    let r := lhsRead c st
    if r.eof then (r.bytes, r.state)
    else
      let rest := lhsReadAll c fuel r.state
      (r.bytes ++ rest.1, rest.2)

/-- Embeds `rhsReader.Read` drained to completion: `wg.Wait()` blocks
forever when `wg.Done()` was never called (modelled as `none`); otherwise
gives the rest of the shared source. -/
def rhsReadAll (st : SplitState) : Option (List Nat) :=
  if st.signalled then some st.remaining else none

/-- Embeds `NewReadersSequential`: the initial shared state over input `b`
with separator `sep` (`wg.Add(1)` leaves the wait group unsignalled). -/
def newReadersSequential (b : List Nat) (sep : Nat) : SplitState :=
  ⟨b, sep, false, false⟩

end Splitio

namespace CsvpbDecoder

/-! ## csvpb Decoder (lookahead record decoder)

`NewDecoder` wraps the input in `br := bufio.NewReader(r)` and
`csv.NewReader(br)`.  `bufio.NewReaderSize` returns its argument
unchanged when it is already a `*bufio.Reader` with a buffer of
sufficient size (both use the 4096-byte default here), so the csv reader
reads from the very same buffered reader that `d.buffer` points to: each
`reader.Read()` consumes exactly one record's bytes (through its line
terminator), and `d.buffer.Peek(1)` sees the first byte of whatever is
still unread.

The model works at record granularity: the stream is the list of records
the csv reader parses in order, followed by a terminal — clean end of
input, or a genuine tokenizer error (a parse error is always backed by
at least one unconsumed byte, so the peek in front of it is non-empty) —
plus `trailingJunk`, whether skippable bytes (blank lines) follow the
last record, which is what `Peek(1)` sees once all records are consumed
before a clean end of input. -/

/-- The value of `d.err`: `none` for no error, `some none` for `io.EOF`,
`some (some e)` for a genuine tokenizer error `e`. -/
abbrev DecErr := Option (Option String)

/-- State of the csvpb `Decoder`. -/
structure DecState where
  /-- Records the csv reader will still return successfully, in order. -/
  pending : List (List String)
  /-- Terminal after `pending` runs out: `none` = clean end of input,
  `some e` = genuine tokenizer error. -/
  terminal : Option String
  /-- Whether skippable bytes (blank lines) follow the last record, so
  that `Peek(1)` still sees a byte once all records are consumed and the
  terminal is clean end of input. -/
  trailingJunk : Bool
  v : Option (List String)
  err : DecErr
  reportedError : Bool
  deriving Repr, DecidableEq

/-- One `d.reader.Read()` call on the shared buffered reader: consumes
exactly one record's bytes, or reports the terminal. -/
def csvReaderRead (s : DecState) : (Option (List String) × DecErr) × DecState :=
  match s.pending with
  | r :: rest => ((some r, none), { s with pending := rest })
  | [] =>
    match s.terminal with
    | none => ((none, some none), s)
    | some e => ((none, some (some e)), s)

/-- What `d.buffer.Peek(1)` sees: a byte remains iff a record, an
erroring byte sequence, or trailing skippable bytes are still unread. -/
def peekNonEmpty (s : DecState) : Bool :=
  !s.pending.isEmpty || s.terminal.isSome || s.trailingJunk

/-- Embeds `Decoder.prefetch`: peek the shared buffer, read a record, and
if the peek saw nothing force `(nil, io.EOF)`. -/
def prefetch (s : DecState) : DecState :=
  let next := peekNonEmpty s
  let res := csvReaderRead s
  let s1 := { res.2 with v := res.1.1, err := res.1.2 }
  if next then s1 else { s1 with v := none, err := some none }

/-- Embeds `NewDecoder`: initial state followed by the constructor's
`prefetch`. -/
def newDecoder (records : List (List String)) (terminal : Option String)
    (trailingJunk : Bool) : DecState :=
  prefetch ⟨records, terminal, trailingJunk, none, none, false⟩

/-- Embeds `Decoder.More`. -/
def More (s : DecState) : Bool :=
  match s.err with
  | none => true
  | some none => false
  | some (some _) => !s.reportedError

/-- Embeds `Decoder.Decode`: result is the `([]string, error)` pair
alongside the successor state. -/
def Decode (s : DecState) : (Option (List String) × Option String) × DecState :=
  match s.err with
  | some none => ((s.v, none), { s with reportedError := true })
  | some (some e) => ((none, some e), { s with reportedError := true })
  | none => ((s.v, none), prefetch s)

/-- Drives the decoder `n` steps, recording the value of `More` before
each `Decode` together with that `Decode`'s result. -/
def runDecoder : Nat → DecState → List (Bool × (Option (List String) × Option String))
  | 0, _ => []
  | n + 1, s => (More s, (Decode s).1) :: runDecoder n (Decode s).2

/-- The decoder state after `n` `Decode` calls. -/
def stateAfter : Nat → DecState → DecState
  | 0, s => s
  | n + 1, s => stateAfter n (Decode s).2

end CsvpbDecoder

namespace Strconv

/-! ## Models of the Go strconv functions used by the value decoder

`strconv.ParseBool`, `strconv.ParseInt` (base 10) and the acceptance
behaviour of `strconv.ParseFloat`.  For `ParseFloat` only acceptance is
modelled (the claims below depend on which branch of `unmarshalValue` is
taken, never on the parsed floating-point value), so the number payload is
carried as the accepted literal text. -/

/-- ASCII lower-casing of one character (the only case change
`strings.ToLower`/`commonPrefixLenIgnoreCase` perform on the ASCII inputs
appearing here). -/
def lowerAscii (c : Char) : Char :=
  if 'A' ≤ c ∧ c ≤ 'Z' then Char.ofNat (c.toNat + 32) else c

/-- Decimal digit test. -/
def isDigit (c : Char) : Bool := '0' ≤ c ∧ c ≤ '9'

/-- Hexadecimal digit test (Go `lower(c)` based check). -/
def isHexDigit (c : Char) : Bool :=
  isDigit c ∨ ('a' ≤ lowerAscii c ∧ lowerAscii c ≤ 'f')

/-- Embeds `strconv.ParseBool`: the exact accepted token set. -/
def goParseBool (s : String) : Option Bool :=
  if s = "1" ∨ s = "t" ∨ s = "T" ∨ s = "TRUE" ∨ s = "true" ∨ s = "True" then some true
  else if s = "0" ∨ s = "f" ∨ s = "F" ∨ s = "FALSE" ∨ s = "false" ∨ s = "False" then some false
  else none

/-- Error classification of `strconv` numeric parsing. -/
inductive NumErr where
  | syntaxErr
  | rangeErr
  deriving Repr, DecidableEq

/-- Value of a digit run, `none` when empty or containing a non-digit. -/
def digitsToNat : List Char → Option Nat
  | [] => none
  | [c] => if isDigit c then some (c.toNat - '0'.toNat) else none
  | c :: rest =>
    if isDigit c then
      match digitsToNat rest with
      | some n => some ((c.toNat - '0'.toNat) * 10 ^ rest.length + n)
      | none => none
    else none

/-- Embeds `strconv.ParseInt(s, 10, bits)`: optional sign, non-empty run
of decimal digits, range check against `±2^(bits-1)`.  (`ParseUint`
overflow beyond `uint64` surfaces as a range error, as in Go.) -/
def goParseInt (bits : Nat) (s : String) : Except NumErr Int :=
  match s.data with
  | [] => .error .syntaxErr
  | c :: rest =>
    let p : Bool × List Char :=
      if c = '-' then (true, rest)
      else if c = '+' then (false, rest)
      else (false, c :: rest)
    match digitsToNat p.2 with
    | none => .error .syntaxErr
    | some n =>
      if n > 2 ^ 64 - 1 then .error .rangeErr
      else
        let cutoff := 2 ^ (bits - 1)
        if !p.1 ∧ n ≥ cutoff then .error .rangeErr
        else if p.1 ∧ n > cutoff then .error .rangeErr
        else .ok (if p.1 then -(n : Int) else (n : Int))

/-- Embeds the state machine of Go's `underscoreOK`: `saw` is the class of
the previous character (`'^'` begin, `'0'` digit or base prefix, `'_'`
underscore, `'!'` other). -/
def underscoreOKLoop (hex : Bool) : Char → List Char → Bool
  | saw, [] => saw ≠ '_'
  | saw, c :: rest =>
    if isDigit c ∨ (hex ∧ ('a' ≤ lowerAscii c ∧ lowerAscii c ≤ 'f')) then
      underscoreOKLoop hex '0' rest
    else if c = '_' then decide (saw = '0') && underscoreOKLoop hex '_' rest
    else decide (saw ≠ '_') && underscoreOKLoop hex '!' rest

/-- Embeds `strconv`'s `underscoreOK`: underscores may appear only
between digits or between a base prefix and a digit. -/
def underscoreOK (s : List Char) : Bool :=
  let s1 := match s with
    | c :: rest => if c = '-' ∨ c = '+' then rest else s
    | [] => s
  match s1 with
  | '0' :: b :: rest =>
    if lowerAscii b = 'b' ∨ lowerAscii b = 'o' ∨ lowerAscii b = 'x' then
      underscoreOKLoop (lowerAscii b = 'x') '0' rest
    else underscoreOKLoop false '^' s1
  | _ => underscoreOKLoop false '^' s1

/-- Mantissa scan of `readFloat`: consumes digits, underscores and at most
one decimal point, returning the number of digits seen and the rest. -/
def scanMant (hex : Bool) : List Char → Bool → Nat → Nat × List Char
  | [], _, nd => (nd, [])
  | c :: rest, sawdot, nd =>
    if c = '_' then scanMant hex rest sawdot nd
    else if c = '.' then
      if sawdot then (nd, c :: rest) else scanMant hex rest true nd
    else if (if hex then isHexDigit c else isDigit c) then
      scanMant hex rest sawdot (nd + 1)
    else (nd, c :: rest)

/-- Digit/underscore run of the exponent part, counting digits. -/
def scanExpDigits : List Char → Nat → Nat × List Char
  | [], nd => (nd, [])
  | c :: rest, nd =>
    if c = '_' then scanExpDigits rest nd
    else if isDigit c then scanExpDigits rest (nd + 1)
    else (nd, c :: rest)

/-- Exponent acceptance (after the `e`/`p` marker): optional sign then at
least one digit, consuming the whole rest of the input. -/
def expOk (cs : List Char) : Bool :=
  let cs1 := match cs with
    | c :: rest => if c = '+' ∨ c = '-' then rest else cs
    | [] => cs
  let r := scanExpDigits cs1 0
  r.1 > 0 && r.2.isEmpty

/-- Decimal (non-hex) float literal acceptance after the sign. -/
def decFloatAccepts (cs : List Char) : Bool :=
  let m := scanMant false cs false 0
  m.1 > 0 &&
    match m.2 with
    | [] => true
    | e :: r2 => decide (lowerAscii e = 'e') && expOk r2

/-- Syntactic acceptance of `readFloat` (decimal or hexadecimal mantissa,
whole input consumed, underscore placement checked). -/
def floatSyntaxAccepts (cs0 : List Char) : Bool :=
  let cs := match cs0 with
    | c :: rest => if c = '+' ∨ c = '-' then rest else cs0
    | [] => cs0
  let core : Bool :=
    match cs with
    | '0' :: x :: rest =>
      if lowerAscii x = 'x' then
        let m := scanMant true rest false 0
        m.1 > 0 &&
          match m.2 with
          | p :: r2 => decide (lowerAscii p = 'p') && expOk r2
          | [] => false
      else decFloatAccepts cs
    | _ => decFloatAccepts cs
  core && (!cs0.contains '_' || underscoreOK cs0)

/-- Acceptance of `strconv`'s `special`: `nan` (unsigned) or optionally
signed `inf`/`infinity`, case-insensitive, whole string. -/
def specialFloatAccepts (cs : List Char) : Bool :=
  let l := cs.map lowerAscii
  l = "nan".data ||
    (let l1 := match l with
      | c :: rest => if c = '+' ∨ c = '-' then rest else l
      | [] => l
     l1 = "inf".data || l1 = "infinity".data)

/-- Embeds the acceptance behaviour of `strconv.ParseFloat(s, ·)`. -/
def goParseFloatAccepts (s : String) : Bool :=
  specialFloatAccepts s.data || floatSyntaxAccepts s.data

end Strconv

namespace CsvRecord

/-! ## Single-record tokenization (encoding/csv `Read` on a cell's text)

`unmarshalValue` re-tokenizes a cell by `csv.NewReader(strings.NewReader(
inputValue))` followed by one `Read()`.  This models that first `Read`
with the default configuration (comma separator, strict quoting): leading
blank lines are skipped, a record is a comma-separated list of fields, a
field is either bare (no quote allowed inside) or double-quoted with `""`
as the escape; the record ends at an unquoted line end or end of input.
`\r\n` line endings are recognised; other `\r` handling (Go normalises
some carriage returns inside quoted fields) does not arise for the inputs
considered.  An input with no record at all yields `io.EOF`. -/

/-- Tokenizer errors of interest: end of input, malformed quoting. -/
inductive CsvErr where
  | eofErr
  | quoteErr
  | bareQuoteErr
  deriving Repr, DecidableEq

/-- Scan one bare (unquoted) field: the field's characters, the rest
after the terminator, and whether the terminator was a comma (more fields
follow). -/
def scanBare : List Char → List Char × List Char × Bool
  | [] => ([], [], false)
  | ',' :: rest => ([], rest, true)
  | '\r' :: '\n' :: _ => ([], [], false)
  | '\n' :: _ => ([], [], false)
  | c :: rest =>
    let r := scanBare rest
    (c :: r.1, r.2.1, r.2.2)

/-- Scan one quoted field body (initial `"` already consumed). -/
def scanQuoted : List Char → Except CsvErr (List Char × List Char × Bool)
  | [] => .error .quoteErr
  | '"' :: '"' :: rest =>
    match scanQuoted rest with
    | .ok r => .ok ('"' :: r.1, r.2.1, r.2.2)
    | .error e => .error e
  | '"' :: ',' :: rest => .ok ([], rest, true)
  | '"' :: '\r' :: '\n' :: _ => .ok ([], [], false)
  | '"' :: '\n' :: _ => .ok ([], [], false)
  | ['"'] => .ok ([], [], false)
  | '"' :: _ :: _ => .error .quoteErr
  | c :: rest =>
    match scanQuoted rest with
    | .ok r => .ok (c :: r.1, r.2.1, r.2.2)
    | .error e => .error e

/-- Parse one field: quoted or bare (a bare field containing `"` is the
bare-quote error). -/
def parseOneField (cs : List Char) : Except CsvErr (String × List Char × Bool) :=
  match cs with
  | '"' :: rest =>
    match scanQuoted rest with
    | .ok r => .ok (String.mk r.1, r.2.1, r.2.2)
    | .error e => .error e
  | _ =>
    let r := scanBare cs
    if r.1.contains '"' then .error .bareQuoteErr
    else .ok (String.mk r.1, r.2.1, r.2.2)

/-- Parse the fields of one record; `fuel` dominates the number of
fields. -/
def parseFields : Nat → List Char → Except CsvErr (List String)
  | 0, _ => .error .quoteErr
  | fuel + 1, cs =>
    match parseOneField cs with
    | .error e => .error e
    | .ok (f, rest, more) =>
      if more then
        match parseFields fuel rest with
        | .ok fs => .ok (f :: fs)
        | .error e => .error e
      else .ok [f]

/-- Embeds the first `csv.Reader.Read()` over the given characters:
leading blank lines are skipped; an exhausted input is `io.EOF`. -/
def parseCsvRecord : List Char → Except CsvErr (List String)
  | [] => .error .eofErr
  | '\n' :: rest => parseCsvRecord rest
  | '\r' :: '\n' :: rest => parseCsvRecord rest
  | cs => parseFields (cs.length + 1) cs

/-- String-level entry point (the cell's raw text). -/
def readRecord (s : String) : Except CsvErr (List String) :=
  parseCsvRecord s.data

end CsvRecord

namespace GoTime

/-! ## Model of `time.ParseDuration` (used by the Duration case of
`unmarshalValue`)

Faithful to Go's parser: optional sign; the special case `0`; then one or
more terms, each a decimal number (integer part, optional fraction) with
a mandatory unit from `ns`, `us`, `µs`, `μs`, `ms`, `s`, `m`, `h`;
overflow checked against `2^63 - 1` exactly as the Go code does.  One
liberty: Go computes a nonzero fractional contribution as
`int64(float64(f) * (float64(unit) / scale))`; the model uses the exact
integer quotient `(f * unit) / scale`, which agrees whenever the floating
computation is exact — in particular whenever `f = 0` (as in `3.000s`)
and for all inputs evaluated in the theorems below. -/

/-- Upper bound of `int64`, `2^63 - 1`. -/
def maxI64 : Nat := 9223372036854775807

/-- Embeds `time.leadingInt`: consume leading digits into `x`, erroring
on `int64` overflow. -/
def leadingInt : List Char → Nat → Except Unit (Nat × List Char)
  | [], x => .ok (x, [])
  | c :: rest, x =>
    if Strconv.isDigit c then
      if x > maxI64 / 10 then .error ()
      else
        let y := x * 10 + (c.toNat - '0'.toNat)
        if y > maxI64 then .error ()
        else leadingInt rest y
    else .ok (x, c :: rest)

/-- Embeds `time.leadingFraction`: consume fraction digits; once the
accumulator would overflow, keep consuming without updating it. -/
def leadingFraction : List Char → Nat → Nat → Bool → Nat × Nat × List Char
  | [], x, scale, _ => (x, scale, [])
  | c :: rest, x, scale, overflow =>
    if Strconv.isDigit c then
      if overflow then leadingFraction rest x scale overflow
      else if x > maxI64 / 10 then leadingFraction rest x scale true
      else
        let y := x * 10 + (c.toNat - '0'.toNat)
        if y > maxI64 then leadingFraction rest x scale true
        else leadingFraction rest y (scale * 10) false
    else (x, scale, c :: rest)

/-- The `unitMap` of time.go, in nanoseconds. -/
def durationUnit (u : List Char) : Option Nat :=
  if u = "ns".data then some 1
  else if u = "us".data then some 1000
  else if u = "µs".data then some 1000
  else if u = "μs".data then some 1000
  else if u = "ms".data then some 1000000
  else if u = "s".data then some 1000000000
  else if u = "m".data then some 60000000000
  else if u = "h".data then some 3600000000000
  else none

/-- Consume the unit token: everything up to the next digit or `.`. -/
def takeUnit : List Char → List Char × List Char
  | [] => ([], [])
  | c :: rest =>
    if c = '.' ∨ Strconv.isDigit c then ([], c :: rest)
    else
      let r := takeUnit rest
      (c :: r.1, r.2)

/-- The term loop of `time.ParseDuration`, accumulating nanoseconds in
`d`; `fuel` dominates the number of terms (each consumes at least its
unit character). -/
def parseDurationLoop : Nat → List Char → Nat → Except Unit Nat
  | _, [], d => .ok d
  | 0, _ :: _, _ => .error ()
  | fuel + 1, c :: cs, d =>
    if ¬(c = '.' ∨ Strconv.isDigit c) then .error ()
    else
      match leadingInt (c :: cs) 0 with
      | .error _ => .error ()
      | .ok (v, cs1) =>
        let pre : Bool := cs1.length ≠ (c :: cs).length
        let fr : Nat × Nat × List Char × Bool :=
          match cs1 with
          | '.' :: r =>
            let lf := leadingFraction r 0 1 false
            (lf.1, lf.2.1, lf.2.2, decide (lf.2.2.length ≠ r.length))
          | _ => (0, 1, cs1, false)
        let f := fr.1
        let scale := fr.2.1
        let cs2 := fr.2.2.1
        let post := fr.2.2.2
        if ¬pre ∧ ¬post then .error ()
        else
          let ur := takeUnit cs2
          if ur.1.isEmpty then .error ()
          else
            match durationUnit ur.1 with
            | none => .error ()
            | some unit =>
              if v > maxI64 / unit then .error ()
              else
                let v1 := v * unit
                let v2 := if f > 0 then v1 + f * unit / scale else v1
                if f > 0 ∧ v2 > maxI64 then .error ()
                else
                  let d1 := d + v2
                  if d1 > maxI64 then .error ()
                  else parseDurationLoop fuel ur.2 d1

/-- Embeds `time.ParseDuration`, returning total nanoseconds. -/
def parseDuration (s : String) : Except Unit Int :=
  let cs0 := s.data
  let p : Bool × List Char :=
    match cs0 with
    | c :: rest =>
      if c = '-' then (true, rest)
      else if c = '+' then (false, rest)
      else (false, cs0)
    | [] => (false, [])
  if p.2 = ['0'] then .ok 0
  else if p.2.isEmpty then .error ()
  else
    match parseDurationLoop (p.2.length + 1) p.2 0 with
    | .error _ => .error ()
    | .ok d => .ok (if p.1 then -(d : Int) else (d : Int))

end GoTime

namespace SpecClaim

/-! Spec-side readings of claim wordings, for comparison with the
source-derived definitions. -/

/-- Longest leading run of decimal digits. -/
def takeDigits : List Char → List Char × List Char
  | [] => ([], [])
  | c :: rest =>
    if Strconv.isDigit c then
      let r := takeDigits rest
      (c :: r.1, r.2)
    else ([], c :: rest)

/-- Reading of the claim wording "a signed decimal number of seconds
followed by a literal `s` suffix (e.g. `4s`, `3.000s`)": optional sign,
a non-empty digit run, an optional fraction, then exactly `s`. -/
def durationSecondsForm (s : String) : Bool :=
  let cs := match s.data with
    | c :: rest => if c = '-' ∨ c = '+' then rest else s.data
    | [] => []
  let p1 := takeDigits cs
  if p1.1.isEmpty then false
  else
    match p1.2 with
    | ['s'] => true
    | '.' :: r2 =>
      let p2 := takeDigits r2
      !p2.1.isEmpty && decide (p2.2 = ['s'])
    | _ => false

end SpecClaim

namespace Csvpb

/-! ## Fragments of `Unmarshaler.unmarshalValue` (csvpb decoder)

Each dispatch branch that a claim refers to is embedded separately, at
the point where `unmarshalValue` has already selected it. -/

/-- Error classification shared by the embedded branches. -/
inductive FieldErr where
  | csv (e : CsvRecord.CsvErr)
  | num (e : Strconv.NumErr)
  | badDuration
  deriving Repr, DecidableEq

/-- The kind slot of a `structpb.Value` (`target.Field(0)`); the number
variant carries the accepted literal (Go stores the parsed `float64`;
the claims depend only on which variant is chosen). -/
inductive StKind where
  | nullValue
  | numberValue (lit : String)
  | boolValue (b : Bool)
  | stringValue (s : String)
  deriving Repr, DecidableEq

/-- Embeds the `case "Value":` branch of `unmarshalValue`: empty text is
the explicit null; text containing `.` is tried as a float; the literal
tokens `1,t,T,0,f,F` are excluded from the boolean attempt; then a float
attempt; else a plain string. -/
def valueWktCase (ivStr : String) : StKind :=
  if ivStr = "" then .nullValue
  else if ivStr.data.contains '.' && Strconv.goParseFloatAccepts ivStr then .numberValue ivStr
  else
    let boolAttempt : Option Bool :=
      if ivStr ≠ "1" ∧ ivStr ≠ "t" ∧ ivStr ≠ "T" ∧ ivStr ≠ "0" ∧ ivStr ≠ "f" ∧ ivStr ≠ "F" then
        Strconv.goParseBool ivStr
      else none
    match boolAttempt with
    | some b => .boolValue b
    | none =>
      if Strconv.goParseFloatAccepts ivStr then .numberValue ivStr
      else .stringValue ivStr

/-- Result of `unmarshalValue` on a pointer field. -/
inductive PtrResult where
  | unset
  | set (k : StKind)
  deriving Repr, DecidableEq

/-- Embeds the pointer-branch guard of `unmarshalValue`: the raw text
`null` leaves the field unset unless the target is `*structpb.Value` (or
a custom unmarshaler). -/
def nullLeavesUnset (targetIsStpbValue : Bool) (iv : String) : Bool :=
  iv == "null" && !targetIsStpbValue

/-- Embeds `unmarshalValue` on a `*structpb.Value` target: the pointer
branch allocates and recurses into the well-known `Value` case. -/
def unmarshalPtrStpbValue (iv : String) : PtrResult :=
  if nullLeavesUnset true iv then .unset else .set (valueWktCase iv)

/-- Whether an `Except` result is a success. -/
def isOkE {ε α : Type} : Except ε α → Bool
  | .ok _ => true
  | .error _ => false

/-- Elementwise decoding of the slice branch: the target slice is filled
in input order; the first failing element aborts with its error. -/
def decodeElems {α : Type} (d : String → Except FieldErr α) :
    List String → Except FieldErr (List α)
  | [] => .ok []
  | c :: cs =>
    match d c with
    | .error e => .error e
    | .ok v =>
      match decodeElems d cs with
      | .error e => .error e
      | .ok vs => .ok (v :: vs)

/-- Embeds the repeated (non-bytes) slice branch of `unmarshalValue`:
re-tokenize the cell with a fresh csv reader, then decode each element;
a tokenizer error (including `io.EOF` on empty text) is returned as the
field's error. -/
def unmarshalRepeated {α : Type} (d : String → Except FieldErr α) (iv : String) :
    Except FieldErr (List α) :=
  match CsvRecord.readRecord iv with
  | .error e => .error (.csv e)
  | .ok cells => decodeElems d cells

/-- An `int32` element decoder (`strconv.ParseInt(s, 10, 32)` as invoked
through the `reflect.Int32` case). -/
def decInt32 (s : String) : Except FieldErr Int :=
  match Strconv.goParseInt 32 s with
  | .error e => .error (.num e)
  | .ok v => .ok v

/-- Embeds the Duration case of `unmarshalValue`: `time.ParseDuration`,
then `s := ns / 1e9; ns %= 1e9` with Go's truncating `int64` division,
stored in the two fields of the target. -/
def unmarshalDuration (s : String) : Except FieldErr (Int × Int) :=
  match GoTime.parseDuration s with
  | .error _ => .error .badDuration
  | .ok n => .ok (n.tdiv 1000000000, n.tmod 1000000000)

/-- Outcome of running a Go code path that may panic instead of
returning. -/
inductive GoOutcome (α : Type) where
  | panicked
  | errored
  | ok (a : α)
  deriving Repr, DecidableEq

/-- Embeds the quote-stripping prologue shared by the boolean and numeric
branches: `inputValue[1 : len(inputValue)-1]` once a leading `"` is seen.
For the one-character input consisting of just `"` the slice is
`[1:0]`, a slice-bounds panic. -/
def quoteStrip (inputValue : String) : GoOutcome String :=
  if inputValue.data.head? = some '"' then
    if inputValue.data.length < 2 then .panicked
    else .ok (String.mk ((inputValue.data.drop 1).dropLast))
  else .ok inputValue

/-- Embeds the boolean branch of `unmarshalValue`: strip one layer of
quotes, lower-case (`strings.ToLower`; inputs here are ASCII), then
`strconv.ParseBool`. -/
def unmarshalBoolBranch (inputValue : String) : GoOutcome Bool :=
  match quoteStrip inputValue with
  | .panicked => .panicked
  | .errored => .errored
  | .ok s =>
    let lowered := String.mk (s.data.map Strconv.lowerAscii)
    match Strconv.goParseBool lowered with
    | some b => .ok b
    | none => .errored

/-- Embeds the numeric branch of `unmarshalValue` for an `int64` target:
quote strip, then `strconv.ParseInt(·, 10, 64)`. -/
def unmarshalInt64Branch (inputValue : String) : GoOutcome Int :=
  match quoteStrip inputValue with
  | .panicked => .panicked
  | .errored => .errored
  | .ok s =>
    match Strconv.goParseInt 64 s with
    | .error _ => .errored
    | .ok v => .ok v

end Csvpb

namespace CsvpbOneof

/-! ## The oneof block of `Unmarshaler.unmarshalRecord`

`csvFields` is the name-to-raw-text map (modelled as an association list
with unique keys).  After the ordinary fields have consumed their cells,
the code iterates over all oneof alternatives (`sprops.OneofTypes`, a Go
map, so the iteration order is not specified — it is a parameter here);
each alternative whose name resolves is consumed and decoded into its
group's single slot `target.Field(oop.Field)`, overwriting whatever an
earlier alternative of the same group put there.  The slot keeps the raw
text (its further decoding by `unmarshalValue` is modelled in the
`Csvpb` namespace). -/

/-- One oneof alternative: accepted spellings, its group's field index,
and an identifier of the alternative itself. -/
structure OneofAlt where
  orig : String
  camel : String
  group : Nat
  alt : Nat
  deriving Repr, DecidableEq

/-- Lookup in the csvFields map. -/
def lookupField : List (String × String) → String → Option String
  | [], _ => none
  | (k, v) :: rest, name => if k = name then some v else lookupField rest name

/-- Deletion from the csvFields map. -/
def eraseField : List (String × String) → String → List (String × String)
  | [], _ => []
  | (k, v) :: rest, name =>
    if k = name then eraseField rest name else (k, v) :: eraseField rest name

/-- Embeds `consumeField` of `unmarshalRecord`: accept either spelling,
favour the camel name when both are present, and delete the consumed
keys from the map. -/
def consumeField (m : List (String × String)) (orig camel : String) :
    Option String × List (String × String) :=
  let vOrig := lookupField m orig
  let vCamel := lookupField m camel
  if vOrig.isNone && vCamel.isNone then (none, m)
  else
    let raw := match vCamel with
      | some v => v
      | none => vOrig.getD ""
    let m1 := if vOrig.isSome then eraseField m orig else m
    let m2 := if vCamel.isSome then eraseField m1 camel else m1
    (some raw, m2)

/-- Overwriting assignment of a group's slot
(`target.Field(oop.Field).Set(nv)`). -/
def setSlot : List (Nat × Nat × String) → Nat → Nat → String → List (Nat × Nat × String)
  | [], g, a, r => [(g, a, r)]
  | (g0, a0, r0) :: rest, g, a, r =>
    if g0 = g then (g, a, r) :: rest else (g0, a0, r0) :: setSlot rest g a r

/-- The loop body over `sprops.OneofTypes` in iteration order `alts`. -/
def oneofLoop : List OneofAlt → List (String × String) → List (Nat × Nat × String) →
    List (Nat × Nat × String) × List (String × String)
  | [], m, slots => (slots, m)
  | alt :: alts, m, slots =>
    match consumeField m alt.orig alt.camel with
    | (none, m1) => oneofLoop alts m1 slots
    | (some raw, m1) => oneofLoop alts m1 (setSlot slots alt.group alt.alt raw)

/-- Embeds the oneof block of `unmarshalRecord` (guarded by
`len(csvFields) > 0`). -/
def unmarshalOneofs (alts : List OneofAlt) (m : List (String × String)) :
    List (Nat × Nat × String) × List (String × String) :=
  if m.isEmpty then ([], m) else oneofLoop alts m []

end CsvpbOneof

namespace CsvpbRequired

/-! ## `checkRequiredFields` (csvpb required-field validator)

The reflective walk is embedded over an explicit message shape: a message
is its well-known-type flag plus its declared fields; a field carries its
proto name, whether it has a `protobuf` tag, its `required` flag and its
value shape.  Value shapes mirror the reflection kinds the Go switch
distinguishes: plain scalars (no switch case), pointers to non-messages,
pointers to messages (nil or set), non-repeated slices (bytes), repeated
slices and maps (whose elements are checked through
`checkRequiredFieldsInValue`, which recurses only into set message
pointers), and oneof interfaces (nil, or a wrapper whose single field is
processed in place of the interface field).  The proto2 extension
registry is process-global state, modelled as empty (no registered
extensions), under which the extension loop is a no-op. -/

mutual

/-- Shape and content of a message value. -/
inductive RMsg where
  | mk (isWellKnown : Bool) (fields : RFields)

/-- Declared fields, in declaration order. -/
inductive RFields where
  | nil
  | cons (f : RField) (fs : RFields)

/-- One declared field: proto name, `protobuf` tag presence, `required`
flag, value. -/
inductive RField where
  | mk (name : String) (hasProtoTag : Bool) (required : Bool) (val : RVal)

/-- The value of a field, by reflection kind. -/
inductive RVal where
  | scalar
  | ptrScalar (isSet : Bool)
  | ptrMsgNil
  | ptrMsgSet (m : RMsg)
  | bytesField (isNil : Bool)
  | repNil
  | repElems (elems : RVals)
  | mapNilV
  | mapVals (vals : RVals)
  | oneofNil
  | oneofActive (inner : RField)

/-- Elements of a repeated field or values of a map. -/
inductive RVals where
  | nil
  | cons (v : RVal) (vs : RVals)

end

mutual

/-- Embeds `checkRequiredFields`: well-known types are skipped; otherwise
the first violation among the declared fields, in declaration order. -/
def checkRequiredFields : RMsg → Option String
  | .mk true _ => none
  | .mk false fs => checkFieldsList fs

/-- First violation among a list of fields. -/
def checkFieldsList : RFields → Option String
  | .nil => none
  | .cons f fs =>
    match checkOneField f with
    | some e => some e
    | none => checkFieldsList fs

/-- One iteration of the field loop: a oneof interface is unwrapped to
its wrapper's single field first (a nil oneof is skipped). -/
def checkOneField : RField → Option String
  | .mk _ _ _ .oneofNil => none
  | .mk _ _ _ (.oneofActive (.mk n2 t2 r2 v2)) => checkFieldKind n2 t2 r2 v2
  | .mk n t r v => checkFieldKind n t r v

/-- The tag check and the kind switch of the field loop. -/
def checkFieldKind (name : String) (hasTag required : Bool) : RVal → Option String
  | .scalar => none
  | .ptrScalar isSet =>
    if hasTag then (if !isSet && required then some name else none) else none
  | .ptrMsgNil =>
    if hasTag then (if required then some name else none) else none
  | .ptrMsgSet m => if hasTag then checkRequiredFields m else none
  | .bytesField isNil =>
    if hasTag then (if required && isNil then some name else none) else none
  | .repNil => none
  | .repElems es => if hasTag then checkValsList es else none
  | .mapNilV => none
  | .mapVals vs => if hasTag then checkValsList vs else none
  | .oneofNil => none
  | .oneofActive _ => none

/-- First violation among repeated elements / map values. -/
def checkValsList : RVals → Option String
  | .nil => none
  | .cons v vs =>
    match checkValueIn v with
    | some e => some e
    | none => checkValsList vs

/-- Embeds `checkRequiredFieldsInValue`: recurse only when the value is a
(set) message pointer. -/
def checkValueIn : RVal → Option String
  | .ptrMsgSet m => checkRequiredFields m
  | _ => none

end

end CsvpbRequired

namespace CsvpbUnmarshal

/-! ## `Unmarshaler.Unmarshal` (header handling and configuration frame)

`Unmarshal` reads the header from the stream only when `u.Header` is
still nil, stores it in the `Unmarshaler`, and then hands the next record
of the same stream to `UnmarshalNext`, which unmarshals it against
`u.Header`.  (As written, the Go source passes the `csv.Reader` where
`NewDecoder` expects an `io.Reader`; the model follows the evident record
dataflow: the decoder yields the remaining records of the same stream.)
The model works at record granularity and reports which header and which
data record reach `unmarshalRecord`; the record's further processing is
modelled in the `CsvpbOneof`, `Csvpb` and `CsvpbRequired` namespaces. -/

/-- The two configuration fields of `Unmarshaler`. -/
structure UnmarshalerState where
  allowUnknownFields : Bool
  header : Option (List String)
  deriving Repr, DecidableEq

/-- What one `Unmarshal` call does with the stream: fail while reading a
header, or route a header and an optional data record (none models the
nil record `Decode` yields at end of input) to `unmarshalRecord`. -/
inductive UnmarshalOutcome where
  | headerReadFailed
  | routed (header : List String) (dataRecord : Option (List String))
  deriving Repr, DecidableEq

/-- Embeds `Unmarshaler.Unmarshal` for a stream of records. -/
def Unmarshal (u : UnmarshalerState) (records : List (List String)) :
    UnmarshalerState × UnmarshalOutcome :=
  match u.header with
  | none =>
    match records with
    | [] => (u, .headerReadFailed)
    | h :: rest => ({ u with header := some h }, .routed h rest.head?)
  | some h => (u, .routed h records.head?)

end CsvpbUnmarshal

instance {ε α : Type} [DecidableEq ε] [DecidableEq α] : DecidableEq (Except ε α)
  | .ok a, .ok b =>
    if h : a = b then .isTrue (by rw [h]) else .isFalse (by intro hc; cases hc; exact h rfl)
  | .error a, .error b =>
    if h : a = b then .isTrue (by rw [h]) else .isFalse (by intro hc; cases hc; exact h rfl)
  | .ok _, .error _ => .isFalse (by intro hc; cases hc)
  | .error _, .ok _ => .isFalse (by intro hc; cases hc)

/-! ## Helper lemmas -/

theorem tmod_neg_left (a b : Int) : (-a).tmod b = -(a.tmod b) := by
  rw [Int.tmod_def, Int.tmod_def, Int.neg_tdiv]; ring

theorem tmod_billion_bounds (n : Int) :
    -1000000000 < n.tmod 1000000000 ∧ n.tmod 1000000000 < 1000000000 := by
  rcases le_total 0 n with hn | hn
  · refine ⟨lt_of_lt_of_le (by norm_num) (Int.tmod_nonneg _ hn), Int.tmod_lt_of_pos n (by norm_num)⟩
  · have h1 : 0 ≤ -n := by omega
    have h2 : (-n).tmod 1000000000 = -(n.tmod 1000000000) := tmod_neg_left n 1000000000
    have h3 : 0 ≤ (-n).tmod 1000000000 := Int.tmod_nonneg _ h1
    have h4 : (-n).tmod 1000000000 < 1000000000 := Int.tmod_lt_of_pos (-n) (by norm_num)
    omega

theorem decodeElems_ok_forall (d : String → Except Csvpb.FieldErr Int) :
    ∀ (cells : List String) (vs : List Int),
      Csvpb.decodeElems d cells = .ok vs →
      List.Forall₂ (fun c v => d c = Except.ok v) cells vs := by
  intro cells
  induction cells with
  | nil =>
    intro vs h
    simp [Csvpb.decodeElems] at h
    simp [← h]
  | cons c cs ih =>
    intro vs h
    cases hd : d c with
    | error e => simp [Csvpb.decodeElems, hd] at h
    | ok v =>
      cases hrest : Csvpb.decodeElems d cs with
      | error e => simp [Csvpb.decodeElems, hd, hrest] at h
      | ok vs2 =>
        simp [Csvpb.decodeElems, hd, hrest] at h
        subst h
        exact List.Forall₂.cons hd (ih vs2 hrest)

theorem decodeElems_error_prop (d : String → Except Csvpb.FieldErr Int) :
    ∀ (pre : List String) (c : String) (post : List String) (e : Csvpb.FieldErr),
      (∀ p ∈ pre, Csvpb.isOkE (d p) = true) → d c = .error e →
      Csvpb.decodeElems d (pre ++ c :: post) = .error e := by
  intro pre
  induction pre with
  | nil =>
    intro c post e _ hc
    simp [Csvpb.decodeElems, hc]
  | cons p pre ih =>
    intro c post e hall hc
    have hp := hall p (by simp)
    cases hd : d p with
    | error e2 => simp [Csvpb.isOkE, hd] at hp
    | ok v =>
      have hrec := ih c post e (fun q hq => hall q (by simp [hq])) hc
      simp [Csvpb.decodeElems, hd, hrec]

theorem setSlot_keys_mem (s : List (Nat × Nat × String)) (g a : Nat) (r : String) (x : Nat) :
    x ∈ (CsvpbOneof.setSlot s g a r).map (fun e => e.1) ↔
      x ∈ s.map (fun e => e.1) ∨ x = g := by
  induction s with
  | nil => simp [CsvpbOneof.setSlot]
  | cons hd tl ih =>
    obtain ⟨g0, a0, r0⟩ := hd
    simp only [CsvpbOneof.setSlot]
    by_cases hg : g0 = g
    · subst hg
      rw [if_pos rfl]
      simp only [List.map_cons, List.mem_cons]
      tauto
    · rw [if_neg hg]
      simp only [List.map_cons, List.mem_cons, ih]
      tauto

theorem setSlot_keys_nodup (s : List (Nat × Nat × String)) (g a : Nat) (r : String)
    (h : (s.map (fun e => e.1)).Nodup) :
    ((CsvpbOneof.setSlot s g a r).map (fun e => e.1)).Nodup := by
  induction s with
  | nil => simp [CsvpbOneof.setSlot]
  | cons hd tl ih =>
    obtain ⟨g0, a0, r0⟩ := hd
    simp only [List.map_cons, List.nodup_cons] at h
    by_cases hg : g0 = g
    · subst hg
      simpa [CsvpbOneof.setSlot] using h
    · simp only [CsvpbOneof.setSlot, if_neg hg, List.map_cons, List.nodup_cons]
      refine ⟨?_, ih h.2⟩
      intro hmem
      rw [setSlot_keys_mem] at hmem
      rcases hmem with hmem | hmem
      · exact h.1 hmem
      · exact hg hmem

theorem oneofLoop_keys_nodup (alts : List CsvpbOneof.OneofAlt) :
    ∀ (m : List (String × String)) (slots : List (Nat × Nat × String)),
      (slots.map (fun e => e.1)).Nodup →
      (((CsvpbOneof.oneofLoop alts m slots).1).map (fun e => e.1)).Nodup := by
  induction alts with
  | nil =>
    intro m slots h
    simpa [CsvpbOneof.oneofLoop] using h
  | cons alt alts ih =>
    intro m slots h
    rcases hcf : CsvpbOneof.consumeField m alt.orig alt.camel with ⟨raw?, m1⟩
    cases raw? with
    | none =>
      rw [CsvpbOneof.oneofLoop, hcf]
      exact ih m1 slots h
    | some raw =>
      rw [CsvpbOneof.oneofLoop, hcf]
      exact ih m1 _ (setSlot_keys_nodup _ _ _ _ h)

theorem prefetch_fresh (rs : List (List String)) (term : Option String) (junk : Bool)
    (v0 : Option (List String)) (e0 : CsvpbDecoder.DecErr) :
    CsvpbDecoder.prefetch ⟨rs, term, junk, v0, e0, false⟩
      = CsvpbDecoder.newDecoder rs term junk := by
  cases rs <;> cases term <;> cases junk <;> rfl

theorem newDecoder_run (term : Option String) (junk : Bool) :
    ∀ records : List (List String),
      CsvpbDecoder.runDecoder records.length (CsvpbDecoder.newDecoder records term junk)
        = records.map (fun r => (true, (some r, none)))
      ∧ CsvpbDecoder.stateAfter records.length (CsvpbDecoder.newDecoder records term junk)
        = ⟨[], term, junk, none, some term, false⟩ := by
  intro records
  induction records with
  | nil =>
    refine ⟨rfl, ?_⟩
    show CsvpbDecoder.newDecoder [] term junk = _
    cases term <;> cases junk <;> rfl
  | cons r rs ih =>
    have hnew : CsvpbDecoder.newDecoder (r :: rs) term junk
        = ⟨rs, term, junk, some r, none, false⟩ := rfl
    have hdec : CsvpbDecoder.Decode ⟨rs, term, junk, some r, none, false⟩
        = ((some r, none), CsvpbDecoder.newDecoder rs term junk) := by
      have h0 : CsvpbDecoder.Decode ⟨rs, term, junk, some r, none, false⟩
          = ((some r, none), CsvpbDecoder.prefetch ⟨rs, term, junk, some r, none, false⟩) := rfl
      rw [h0, prefetch_fresh]
    have hmore : CsvpbDecoder.More ⟨rs, term, junk, some r, none, false⟩ = true := rfl
    constructor
    · show CsvpbDecoder.runDecoder (rs.length + 1) (CsvpbDecoder.newDecoder (r :: rs) term junk)
        = _
      rw [hnew, CsvpbDecoder.runDecoder, hdec, hmore]
      simp only [List.map_cons]
      exact congrArg _ (ih.1)
    · show CsvpbDecoder.stateAfter (rs.length + 1) (CsvpbDecoder.newDecoder (r :: rs) term junk)
        = _
      rw [hnew, CsvpbDecoder.stateAfter, hdec]
      exact ih.2

/-! ## Claim theorems -/

/-- C1: the claim states that for every byte sequence and separator,
draining the left reader and then the right reader reconstructs the input
with the first separator removed, and that when the separator does not
occur the right reader reaches end-of-stream after zero bytes.  The code
violates the no-separator case: `lhsReader.Read` then returns `io.EOF`
through the `i == -1` path without ever setting `done` or calling
`wg.Done()`, so a read on the right reader waits forever on the wait
group instead of reaching end-of-stream.  Evaluated here on the bytes of
`"abc"` with separator `\n` (no occurrence): the left reader is drained
to completion and yields all of the input, yet the completion signal is
never raised and the right reader's read blocks (`none`).  On the bytes
of `"foo,bar,my\n1,2,3"` (a separator occurs, the repository's own test
case) the claimed behaviour does hold. -/
theorem C1_splitter_no_separator_blocks_rhs :
    ((Splitio.lhsReadAll 512 20 (Splitio.newReadersSequential [97, 98, 99] 10)).1 = [97, 98, 99])
  ∧ ((Splitio.lhsReadAll 512 20 (Splitio.newReadersSequential [97, 98, 99] 10)).2.signalled
      = false)
  ∧ (Splitio.rhsReadAll (Splitio.lhsReadAll 512 20
      (Splitio.newReadersSequential [97, 98, 99] 10)).2 = none)
  ∧ ((Splitio.lhsReadAll 512 20 (Splitio.newReadersSequential
        [102, 111, 111, 44, 98, 97, 114, 44, 109, 121, 10, 49, 44, 50, 44, 51] 10)).1
      = [102, 111, 111, 44, 98, 97, 114, 44, 109, 121])
  ∧ (Splitio.rhsReadAll (Splitio.lhsReadAll 512 20 (Splitio.newReadersSequential
        [102, 111, 111, 44, 98, 97, 114, 44, 109, 121, 10, 49, 44, 50, 44, 51] 10)).2
      = some [49, 44, 50, 44, 51]) := by
  decide

/-- C2: for empty input, `More()` on a freshly constructed decoder is
false with no prior `Decode()`; for an input of `N` records (and any
trailing skippable bytes), `N` successive `Decode()` calls are each
preceded by `More() = true` and return the `N` records in order, after
which `More()` is false.  The csv reader shares the decoder's buffered
reader (`bufio.NewReaderSize` returns an existing `*bufio.Reader`
unchanged), so each record read consumes exactly that record's bytes and
the `Peek(1)` in `prefetch` sees the start of the next record until the
stream is exhausted. -/
theorem C2_lookahead_protocol :
    (CsvpbDecoder.More (CsvpbDecoder.newDecoder [] none false) = false)
  ∧ (∀ (records : List (List String)) (junk : Bool),
      CsvpbDecoder.runDecoder records.length (CsvpbDecoder.newDecoder records none junk)
        = records.map (fun r => (true, (some r, none))))
  ∧ (∀ (records : List (List String)) (junk : Bool),
      CsvpbDecoder.More
        (CsvpbDecoder.stateAfter records.length (CsvpbDecoder.newDecoder records none junk))
        = false) := by
  refine ⟨rfl, fun records junk => (newDecoder_run none junk records).1,
    fun records junk => ?_⟩
  rw [(newDecoder_run none junk records).2]
  rfl

/-- Witness for the C2 theorem, applying its quantified clauses to the
repository's own three-record test input. -/
theorem C2_lookahead_protocol_witness :
    CsvpbDecoder.runDecoder 3
      (CsvpbDecoder.newDecoder [["foo", "0"], ["bar", "1"], ["my", "2"]] none false)
      = [(true, (some ["foo", "0"], none)), (true, (some ["bar", "1"], none)),
         (true, (some ["my", "2"], none))]
  ∧ CsvpbDecoder.More (CsvpbDecoder.stateAfter 3
      (CsvpbDecoder.newDecoder [["foo", "0"], ["bar", "1"], ["my", "2"]] none false))
      = false :=
  ⟨C2_lookahead_protocol.2.1 [["foo", "0"], ["bar", "1"], ["my", "2"]] false,
   C2_lookahead_protocol.2.2 [["foo", "0"], ["bar", "1"], ["my", "2"]] false⟩

/-- C3 counterexample: the claim states that the raw text `null` decoded
into the dynamic-value type yields the explicit null-value variant.  On
the code it does not: `null` falls through the `Value` heuristic (not a
float, not an accepted boolean) to the plain-string fallback, yielding
the string variant holding `"null"` — exactly what the repository's own
test table expects. -/
theorem C3_null_to_value_counterexample :
    Csvpb.unmarshalPtrStpbValue "null" = .set (.stringValue "null")
  ∧ Csvpb.unmarshalPtrStpbValue "null" ≠ .set .nullValue := by
  decide

/-- C3 amended: decoding the literal `null` into the dynamic-value type
produces a set value (the pointer branch deliberately exempts
`*structpb.Value` from the null-means-unset rule), but the variant is the
string variant holding `"null"`; the explicit null-value variant is
produced for the empty raw text instead. -/
theorem C3_null_to_value_amended :
    Csvpb.unmarshalPtrStpbValue "null" = .set (.stringValue "null")
  ∧ Csvpb.unmarshalPtrStpbValue "null" ≠ .unset
  ∧ Csvpb.nullLeavesUnset true "null" = false
  ∧ Csvpb.unmarshalPtrStpbValue "" = .set .nullValue := by
  decide

/-- C4 counterexample: the claim states that decoding the empty raw text
into a repeated scalar field succeeds with zero elements.  On the code it
fails: the slice branch re-tokenizes the cell and `csv.Reader.Read` on
empty input returns `io.EOF`, which the branch returns as the field's
error. -/
theorem C4_repeated_empty_counterexample :
    Csvpb.unmarshalRepeated Csvpb.decInt32 "" = .error (.csv .eofErr)
  ∧ Csvpb.unmarshalRepeated Csvpb.decInt32 "" ≠ .ok [] := by
  decide

/-- C4 amended: decoding the empty raw text into a repeated scalar
(non-bytes) field fails with the tokenizer's end-of-input error; for
non-empty raw text the cell is re-tokenized as its own comma-separated
sub-record and each element is decoded by the element type's scalar rule
with order preserved (elementwise correspondence), and a failing element
fails the whole field with that element's error. -/
theorem C4_repeated_scalar_amended :
    (Csvpb.unmarshalRepeated Csvpb.decInt32 "" = .error (.csv .eofErr))
  ∧ (Csvpb.unmarshalRepeated Csvpb.decInt32 "1,2,3" = .ok [1, 2, 3])
  ∧ (Csvpb.unmarshalRepeated Csvpb.decInt32 "1,x,3" = .error (.num .syntaxErr))
  ∧ (∀ (d : String → Except Csvpb.FieldErr Int) (cells : List String) (vs : List Int),
      Csvpb.decodeElems d cells = .ok vs →
      List.Forall₂ (fun c v => d c = Except.ok v) cells vs)
  ∧ (∀ (d : String → Except Csvpb.FieldErr Int) (pre : List String) (c : String)
      (post : List String) (e : Csvpb.FieldErr),
      (∀ p ∈ pre, Csvpb.isOkE (d p) = true) → d c = .error e →
      Csvpb.decodeElems d (pre ++ c :: post) = .error e) :=
  ⟨by decide, by decide, by decide,
   fun d => decodeElems_ok_forall d,
   fun d => decodeElems_error_prop d⟩

/-- Witness for the amended C4 theorem, applying its two quantified
clauses at concrete inputs. -/
theorem C4_repeated_scalar_amended_witness :
    List.Forall₂ (fun c v => Csvpb.decInt32 c = Except.ok v) ["1", "2"] [(1 : Int), 2]
  ∧ Csvpb.decodeElems Csvpb.decInt32 (["1"] ++ "x" :: ["3"]) = .error (.num .syntaxErr) :=
  ⟨C4_repeated_scalar_amended.2.2.2.1 Csvpb.decInt32 ["1", "2"] [1, 2] (by decide),
   C4_repeated_scalar_amended.2.2.2.2 Csvpb.decInt32 ["1"] "x" ["3"] (.num .syntaxErr)
     (by decide) (by decide)⟩

/-- C5 counterexample: the claim states decoding a Duration succeeds
exactly when the raw text is a signed decimal number of seconds followed
by a literal `s` suffix.  The code delegates to `time.ParseDuration`,
which also accepts other unit suffixes: `1m` is not of the claimed form
(`durationSecondsForm` is the claim's grammar) yet decodes successfully
to 60 seconds. -/
theorem C5_duration_grammar_counterexample :
    SpecClaim.durationSecondsForm "1m" = false
  ∧ Csvpb.unmarshalDuration "1m" = .ok (60, 0)
  ∧ SpecClaim.durationSecondsForm "4s" = true
  ∧ SpecClaim.durationSecondsForm "3.000s" = true := by
  decide

/-- C5 amended: decoding a Duration succeeds exactly when the raw text is
accepted by Go's `time.ParseDuration` grammar — one or more decimal
number-plus-unit terms with units `ns`/`us`/`µs`/`ms`/`s`/`m`/`h`, plus
the bare literal `0` — so `4s` and `3.000s` succeed but so do `1m` and
`300ms`, while `4` (missing unit) and `bananas` fail with a format error;
on success the total nanoseconds `n` are stored as whole seconds
`n.tdiv 1e9` plus nanosecond remainder `n.tmod 1e9` (Go's truncating
`int64` division), which recompose to `n`, keep the remainder below one
second in magnitude, and carry the sign consistently on both parts. -/
theorem C5_duration_amended :
    (Csvpb.unmarshalDuration "4s" = .ok (4, 0))
  ∧ (Csvpb.unmarshalDuration "3.000s" = .ok (3, 0))
  ∧ (Csvpb.unmarshalDuration "1m" = .ok (60, 0))
  ∧ (Csvpb.unmarshalDuration "300ms" = .ok (0, 300000000))
  ∧ (Csvpb.unmarshalDuration "-4.5s" = .ok (-4, -500000000))
  ∧ (Csvpb.unmarshalDuration "4" = .error .badDuration)
  ∧ (Csvpb.unmarshalDuration "bananas" = .error .badDuration)
  ∧ (∀ (s : String) (n : Int), GoTime.parseDuration s = .ok n →
      Csvpb.unmarshalDuration s = .ok (n.tdiv 1000000000, n.tmod 1000000000)
      ∧ 1000000000 * n.tdiv 1000000000 + n.tmod 1000000000 = n
      ∧ (n.tmod 1000000000).natAbs < 1000000000
      ∧ (0 ≤ n → 0 ≤ n.tdiv 1000000000 ∧ 0 ≤ n.tmod 1000000000)
      ∧ (n ≤ 0 → n.tdiv 1000000000 ≤ 0 ∧ n.tmod 1000000000 ≤ 0)) := by
  refine ⟨by decide, by decide, by decide, by decide, by decide, by decide, by decide, ?_⟩
  intro s n hn
  refine ⟨by simp [Csvpb.unmarshalDuration, hn], Int.tdiv_add_tmod n 1000000000, ?_, ?_, ?_⟩
  · have hb := tmod_billion_bounds n
    omega
  · intro h
    exact ⟨Int.tdiv_nonneg h (by norm_num), Int.tmod_nonneg _ h⟩
  · intro h
    have h1 : 0 ≤ -n := by omega
    have hd : 0 ≤ (-n).tdiv 1000000000 := Int.tdiv_nonneg h1 (by norm_num)
    have hm : 0 ≤ (-n).tmod 1000000000 := Int.tmod_nonneg _ h1
    rw [Int.neg_tdiv] at hd
    rw [tmod_neg_left] at hm
    constructor <;> omega

/-- Witness for the amended C5 theorem, applying its quantified clause at
the input `4s` (4000000000 nanoseconds). -/
theorem C5_duration_amended_witness :
    GoTime.parseDuration "4s" = .ok 4000000000
  ∧ (Csvpb.unmarshalDuration "4s"
        = .ok ((4000000000 : Int).tdiv 1000000000, (4000000000 : Int).tmod 1000000000)
      ∧ 1000000000 * (4000000000 : Int).tdiv 1000000000 + (4000000000 : Int).tmod 1000000000
        = 4000000000
      ∧ ((4000000000 : Int).tmod 1000000000).natAbs < 1000000000
      ∧ (0 ≤ (4000000000 : Int) →
          0 ≤ (4000000000 : Int).tdiv 1000000000 ∧ 0 ≤ (4000000000 : Int).tmod 1000000000)
      ∧ ((4000000000 : Int) ≤ 0 →
          (4000000000 : Int).tdiv 1000000000 ≤ 0 ∧ (4000000000 : Int).tmod 1000000000 ≤ 0)) :=
  ⟨by decide, C5_duration_amended.2.2.2.2.2.2.2 "4s" 4000000000 (by decide)⟩

/-- C6 counterexample: the claim states that when the raw data supplies
text for more than one alternative of the same oneof group, the first
resolved alternative wins and the later ones are never looked up.  On the
code the loop over `sprops.OneofTypes` does not stop after a group's
first match: with two alternatives of group 0 both present (`Country` and
`homeAddress`), both are consumed from the field map and the second one
processed overwrites the group's slot, so the final slot holds
alternative 2, not alternative 1, and the second name has been consumed
(the map is empty). -/
theorem C6_oneof_first_wins_counterexample :
    (CsvpbOneof.unmarshalOneofs
        [⟨"country", "Country", 0, 1⟩, ⟨"home_address", "homeAddress", 0, 2⟩]
        [("Country", "Australia"), ("homeAddress", "Berlin")]
      = ([(0, 2, "Berlin")], []))
  ∧ ([((0 : Nat), (2 : Nat), "Berlin")] ≠ [((0 : Nat), (1 : Nat), "Australia")]) := by
  decide

/-- C6 amended: each oneof group occupies a single slot in the target, so
at most one alternative per group is ever set (the slot keys stay
duplicate-free for every alternative order and every field map); but when
the raw data supplies text for more than one alternative of the same
group, every matching alternative is looked up, consumed from the field
map and decoded in turn, each overwriting the group's slot, so the last
alternative in the (unspecified Go map) iteration order wins — shown
concretely for two alternatives of one group, against the single-match
case where the sole matching alternative lands in the slot. -/
theorem C6_oneof_amended :
    (∀ (alts : List CsvpbOneof.OneofAlt) (m : List (String × String)),
      (((CsvpbOneof.unmarshalOneofs alts m).1).map (fun e => e.1)).Nodup)
  ∧ (CsvpbOneof.unmarshalOneofs
        [⟨"country", "Country", 0, 1⟩, ⟨"home_address", "homeAddress", 0, 2⟩]
        [("Country", "Australia"), ("homeAddress", "Berlin")]
      = ([(0, 2, "Berlin")], []))
  ∧ (CsvpbOneof.unmarshalOneofs
        [⟨"country", "Country", 0, 1⟩, ⟨"home_address", "homeAddress", 0, 2⟩]
        [("Country", "Australia")]
      = ([(0, 1, "Australia")], [])) := by
  refine ⟨?_, by decide, by decide⟩
  intro alts m
  unfold CsvpbOneof.unmarshalOneofs
  by_cases hm : m.isEmpty
  · simp [hm]
  · simp only [hm, if_neg]
    exact oneofLoop_keys_nodup alts m [] (by simp)

/-- C7: the claim states that no input can cause a crash/panic instead of
a returned error, naming in particular a raw cell consisting of a single
double-quote character decoded into a boolean or numeric field.  On the
code that cell panics: the quote-stripping prologue slices
`inputValue[1 : len(inputValue)-1]`, which for the one-byte input `"` is
the out-of-range slice `[1:0]`.  Ordinary quoted inputs return values,
so the panic is specific to the degenerate cell (and `unmarshalRecord`
additionally panics outright on non-struct targets via
`panic("FALLBACK NOT IMPLEMENTED")`). -/
theorem C7_quote_cell_panics :
    Csvpb.unmarshalBoolBranch "\"" = .panicked
  ∧ Csvpb.unmarshalInt64Branch "\"" = .panicked
  ∧ Csvpb.unmarshalBoolBranch "\"TRUE\"" = .ok true
  ∧ Csvpb.unmarshalInt64Branch "\"-314\"" = .ok (-314)
  ∧ Csvpb.unmarshalBoolBranch "x" = .errored := by
  decide

/-- C8: when the tokenizer reports a genuine (non-EOF) error after any
number of good records, all the good records are still delivered first;
the decoder then holds the error, `More()` reports true until the error
has been retrieved once by `Decode()` (which surfaces exactly that
error), after which `More()` reports false; and the post-retrieval state
is a fixpoint of `Decode` — every further call returns the same error
and the same state, so the decoder never transitions back to having a
ready record.  A parse error is always backed by unconsumed bytes in the
shared buffered reader, so the `Peek(1)` in `prefetch` is non-empty and
the error is preserved, not downgraded to `io.EOF`. -/
theorem C8_error_surfaced_once :
    (∀ (records : List (List String)) (junk : Bool) (e : String),
      CsvpbDecoder.runDecoder records.length
        (CsvpbDecoder.newDecoder records (some e) junk)
        = records.map (fun r => (true, (some r, none))))
  ∧ (∀ (records : List (List String)) (junk : Bool) (e : String),
      CsvpbDecoder.stateAfter records.length (CsvpbDecoder.newDecoder records (some e) junk)
        = ⟨[], some e, junk, none, some (some e), false⟩)
  ∧ (∀ (e : String) (junk : Bool),
      CsvpbDecoder.More ⟨[], some e, junk, none, some (some e), false⟩ = true)
  ∧ (∀ (e : String) (junk : Bool),
      CsvpbDecoder.Decode ⟨[], some e, junk, none, some (some e), false⟩
        = ((none, some e), ⟨[], some e, junk, none, some (some e), true⟩))
  ∧ (∀ (e : String) (junk : Bool),
      CsvpbDecoder.More ⟨[], some e, junk, none, some (some e), true⟩ = false)
  ∧ (∀ (e : String) (junk : Bool),
      CsvpbDecoder.Decode ⟨[], some e, junk, none, some (some e), true⟩
        = ((none, some e), ⟨[], some e, junk, none, some (some e), true⟩)) :=
  ⟨fun records junk e => (newDecoder_run (some e) junk records).1,
   fun records junk e => (newDecoder_run (some e) junk records).2,
   fun _ _ => rfl, fun _ _ => rfl, fun _ _ => rfl, fun _ _ => rfl⟩

/-- Witness for the C8 theorem, applying its quantified clauses to one
good record followed by a tokenizer error. -/
theorem C8_error_surfaced_once_witness :
    CsvpbDecoder.runDecoder 1 (CsvpbDecoder.newDecoder [["good"]] (some "quote") false)
      = [(true, (some ["good"], none))]
  ∧ CsvpbDecoder.stateAfter 1 (CsvpbDecoder.newDecoder [["good"]] (some "quote") false)
      = ⟨[], some "quote", false, none, some (some "quote"), false⟩
  ∧ CsvpbDecoder.More ⟨[], some "quote", false, none, some (some "quote"), false⟩ = true
  ∧ CsvpbDecoder.Decode ⟨[], some "quote", false, none, some (some "quote"), false⟩
      = ((none, some "quote"), ⟨[], some "quote", false, none, some (some "quote"), true⟩)
  ∧ CsvpbDecoder.More ⟨[], some "quote", false, none, some (some "quote"), true⟩ = false :=
  ⟨C8_error_surfaced_once.1 [["good"]] false "quote",
   C8_error_surfaced_once.2.1 [["good"]] false "quote",
   C8_error_surfaced_once.2.2.1 "quote" false,
   C8_error_surfaced_once.2.2.2.1 "quote" false,
   C8_error_surfaced_once.2.2.2.2.1 "quote" false⟩

/-- C9: validating a message that declares a required field whose pointer
slot is unset fails with a required-field error naming that field, and
the same message with the field set validates cleanly; the validator
checks every declared field (a violation in the second field is found
when the first is fine) and recurses into repeated message elements, map
values, and the active oneof alternative. -/
theorem C9_required_field_validator :
    (∀ nm : String,
      CsvpbRequired.checkRequiredFields
        (.mk false (.cons (.mk nm true true (.ptrScalar false)) .nil)) = some nm)
  ∧ (∀ nm : String,
      CsvpbRequired.checkRequiredFields
        (.mk false (.cons (.mk nm true true (.ptrScalar true)) .nil)) = none)
  ∧ (CsvpbRequired.checkRequiredFields
      (.mk false (.cons (.mk "first_ok" true true (.ptrScalar true))
        (.cons (.mk "second_req" true true (.ptrScalar false)) .nil)))
      = some "second_req")
  ∧ (CsvpbRequired.checkRequiredFields
      (.mk false (.cons (.mk "elems" true false
        (.repElems (.cons (.ptrMsgSet (.mk false
          (.cons (.mk "rep_inner_req" true true .ptrMsgNil) .nil))) .nil))) .nil))
      = some "rep_inner_req")
  ∧ (CsvpbRequired.checkRequiredFields
      (.mk false (.cons (.mk "mapped" true false
        (.mapVals (.cons (.ptrMsgSet (.mk false
          (.cons (.mk "map_inner_req" true true (.ptrScalar false)) .nil))) .nil))) .nil))
      = some "map_inner_req")
  ∧ (CsvpbRequired.checkRequiredFields
      (.mk false (.cons (.mk "union" false false
        (.oneofActive (.mk "alt" true false (.ptrMsgSet (.mk false
          (.cons (.mk "oneof_inner_req" true true (.ptrScalar false)) .nil)))))) .nil))
      = some "oneof_inner_req") :=
  ⟨fun _ => rfl, fun _ => rfl, by decide, by decide, by decide, by decide⟩

/-- C10: when `Unmarshaler.Header` is nil, `Unmarshal` reads the first
record of the stream into `Header`, where it persists; a second call on
the same `Unmarshaler` does not read a new header and routes the new
stream's first record as data against the stored header; when the header
read itself fails (empty stream) `Header` stays nil; and no call ever
changes `AllowUnknownFields`. -/
theorem C10_header_persistence_frame :
    (∀ (b : Bool) (h d1 : List String) (t1 : List (List String)),
      CsvpbUnmarshal.Unmarshal ⟨b, none⟩ (h :: d1 :: t1)
        = (⟨b, some h⟩, .routed h (some d1)))
  ∧ (∀ (b : Bool) (h : List String) (recs : List (List String)),
      CsvpbUnmarshal.Unmarshal ⟨b, some h⟩ recs = (⟨b, some h⟩, .routed h recs.head?))
  ∧ (∀ (b : Bool) (h d1 : List String) (t1 : List (List String)) (d2 : List String)
      (t2 : List (List String)),
      CsvpbUnmarshal.Unmarshal (CsvpbUnmarshal.Unmarshal ⟨b, none⟩ (h :: d1 :: t1)).1 (d2 :: t2)
        = (⟨b, some h⟩, .routed h (some d2)))
  ∧ (∀ b : Bool, CsvpbUnmarshal.Unmarshal ⟨b, none⟩ [] = (⟨b, none⟩, .headerReadFailed))
  ∧ (∀ (u : CsvpbUnmarshal.UnmarshalerState) (recs : List (List String)),
      ((CsvpbUnmarshal.Unmarshal u recs).1).allowUnknownFields = u.allowUnknownFields) := by
  refine ⟨fun b h d1 t1 => rfl, fun b h recs => rfl, fun b h d1 t1 d2 t2 => rfl,
    fun b => rfl, ?_⟩
  intro u recs
  obtain ⟨b, hd⟩ := u
  cases hd with
  | none => cases recs with
    | nil => rfl
    | cons r rest => rfl
  | some h => rfl

/-- Witness for the C6 amended theorem, applying its quantified clause at
a concrete alternative list and field map. -/
theorem C6_oneof_amended_witness :
    (((CsvpbOneof.unmarshalOneofs [⟨"a", "A", 0, 1⟩] [("A", "x")]).1).map
      (fun e => e.1)).Nodup :=
  C6_oneof_amended.1 [⟨"a", "A", 0, 1⟩] [("A", "x")]

/-- Witness for the C9 theorem, applying its quantified clauses at the
field name `str`. -/
theorem C9_required_field_validator_witness :
    CsvpbRequired.checkRequiredFields
      (.mk false (.cons (.mk "str" true true (.ptrScalar false)) .nil)) = some "str"
  ∧ CsvpbRequired.checkRequiredFields
      (.mk false (.cons (.mk "str" true true (.ptrScalar true)) .nil)) = none :=
  ⟨C9_required_field_validator.1 "str", C9_required_field_validator.2.1 "str"⟩

/-- Witness for the C10 theorem, applying its quantified clauses at a
concrete configuration and stream. -/
theorem C10_header_persistence_frame_witness :
    CsvpbUnmarshal.Unmarshal ⟨true, none⟩ [["h"], ["d"]]
      = (⟨true, some ["h"]⟩, .routed ["h"] (some ["d"]))
  ∧ ((CsvpbUnmarshal.Unmarshal ⟨true, none⟩ [["h"], ["d"]]).1).allowUnknownFields = true :=
  ⟨C10_header_persistence_frame.1 true ["h"] ["d"] [],
   C10_header_persistence_frame.2.2.2.2 ⟨true, none⟩ [["h"], ["d"]]⟩
